import Mathlib

/-!
# Verification of the ai-governance policy scanning core

Shallow embedding, in Lean 4, of the decision engine of the
`ai-governance-tool` repository:

* `ai_governance/policy_engine.py` — pattern compilation
  (`PolicyEngine._compile_patterns`), path-block checks
  (`PolicyEngine.is_file_blocked`), content scanning with redaction
  (`PolicyEngine.scan_content`), and `PolicyEngine.get_policy_info`;
* `ai_governance/scanner.py` — the allow/block verdict logic
  (`Scanner.scan_file`);
* `ai_governance/audit_logger.py` — the append-only audit store
  (`AuditLogger.log_action`, `get_recent_logs`,
  `get_statistics_by_timeframe`);
* `ai_governance/ai_client.py` — the pricing functions
  (`AIClient._calculate_cost`, `AIClient.estimate_cost`).

Modelling conventions:

* Python's `re` module is an external library; it is abstracted as a
  `RegexEngine` record supplying, for each pattern source text, whether
  `re.compile` succeeds and what `findall` returns on a given content
  string (the `re.IGNORECASE` flag is part of that abstract behaviour).
  Patterns with capturing groups, for which Python's `findall` returns
  groups rather than whole matches, are represented by whatever strings
  the engine returns.
* Python's `fnmatch.fnmatch` (used for `blocked_file_patterns`) is
  implemented concretely below on lists of characters: `*` matches any
  sequence, `?` any single character, `[...]`/`[!...]` character classes
  with ranges; a `[` with no closing `]` is a literal.  On POSIX,
  `os.path.normcase` is the identity, so no case folding is applied.
  File paths are taken in the normalised form `str(Path(p))` that the
  scanner passes to `is_file_blocked`.
* The filesystem is abstracted as a `FileState`: whether the path
  exists, whether it is a regular file, its `stat` size, and the result
  of reading it as UTF-8 text.
* Python `float` arithmetic in the pricing functions is modelled with
  exact rationals; `round(x, n)` is modelled by `pyround`.  The two
  differ only on exact half-way ties (Python rounds half to even),
  which cannot arise for the pricing values proved about below, since
  those are exact multiples of 10^-6.
* SQLite's `audit_log` table is modelled as an in-memory list of
  records plus the AUTOINCREMENT counter; `ORDER BY timestamp DESC` is
  an insertion sort on the store-assigned timestamps, which are
  abstracted as natural numbers (ISO-8601 UTC strings of a fixed
  format compare lexicographically exactly like the instants they
  denote).
-/

namespace AIGov

/-! ## Glob matching (Python `fnmatch.fnmatch` on POSIX) -/

/-- A token of a translated glob pattern, mirroring `fnmatch.translate`:
`*`, `?`, a character class (possibly negated), or a literal character. -/
inductive GlobTok
  | star
  | anyChar
  | lit (c : Char)
  | cls (neg : Bool) (body : List Char)
deriving DecidableEq

/-- Scan a character list up to the first `]`, returning the part before
it and the part after it; `none` when no `]` occurs.  Mirrors the
closing-bracket scan inside `fnmatch.translate`. -/
def spanUntilRB : List Char → Option (List Char × List Char)
  | [] => none
  | c :: rest =>
    if c = ']' then some ([], rest)
    else (spanUntilRB rest).map (fun br => (c :: br.1, br.2))

/-- Parse a character class from the characters following `[`: an
optional leading `!` negates; a `]` directly after `[` or `[!` is a
literal member; the class runs to the next `]`.  Returns
`(negated, body, rest-of-pattern)`, or `none` when the class is
unterminated (in which case `[` is treated as a literal). -/
def parseClass (p : List Char) : Option (Bool × List Char × List Char) :=
  let neg : Bool := match p with | '!' :: _ => true | _ => false
  let p1 : List Char := match p with | '!' :: rest => rest | _ => p
  match p1 with
  | ']' :: rest2 => (spanUntilRB rest2).map (fun br => (neg, ']' :: br.1, br.2))
  | _ => (spanUntilRB p1).map (fun br => (neg, br.1, br.2))

/-- Translate a glob pattern into tokens (cf. `fnmatch.translate`).
Fuel-indexed structural recursion; every step consumes at least one
pattern character, so `p.length + 1` fuel always suffices. -/
def translateGlobAux : Nat → List Char → List GlobTok
  | 0, _ => []
  | _, [] => []
  | fuel + 1, c :: p =>
    if c = '*' then .star :: translateGlobAux fuel p
    else if c = '?' then .anyChar :: translateGlobAux fuel p
    else if c = '[' then
      match parseClass p with
      | some (neg, body, rest) => .cls neg body :: translateGlobAux fuel rest
      | none => .lit '[' :: translateGlobAux fuel p
    else .lit c :: translateGlobAux fuel p

/-- Translate a glob pattern into tokens. -/
def translateGlob (p : List Char) : List GlobTok :=
  translateGlobAux (p.length + 1) p

/-- Does character `c` belong to the (non-negated) class body?  Items
are single characters or `a-b` ranges by code point; a trailing `-` is a
literal. -/
def matchSet (c : Char) : List Char → Bool
  | [] => false
  | [x] => c == x
  | x :: '-' :: [] => c == x || c == '-'
  | x :: '-' :: y :: rest => (decide (x ≤ c) && decide (c ≤ y)) || matchSet c rest
  | x :: rest => c == x || matchSet c rest

/-- Match a token list against a character list (anchored at both ends,
as `fnmatch`'s regex is).  Fuel-indexed: each recursive call strictly
decreases `tokens.length + chars.length`, so that much fuel suffices. -/
def globMatchAux : Nat → List GlobTok → List Char → Bool
  | 0, _, _ => false
  | fuel + 1, p, s =>
    match p, s with
    | [], s => s.isEmpty
    | .star :: p', s =>
      globMatchAux fuel p' s ||
        (match s with
         | [] => false
         | _ :: s' => globMatchAux fuel (.star :: p') s')
    | .anyChar :: p', s =>
      match s with
      | [] => false
      | _ :: s' => globMatchAux fuel p' s'
    | .cls neg body :: p', s =>
      match s with
      | [] => false
      | ch :: s' => (matchSet ch body != neg) && globMatchAux fuel p' s'
    | .lit c :: p', s =>
      match s with
      | [] => false
      | ch :: s' => (c == ch) && globMatchAux fuel p' s'

/-- Python `fnmatch.fnmatch(name, pat)` on POSIX (no case folding). -/
def fnmatch (nameStr patStr : String) : Bool :=
  let p := translateGlob patStr.data
  let s := nameStr.data
  globMatchAux (p.length + s.length + 1) p s

/-! ## Policy data model (`policy_engine.py`) -/

/-- One entry of the policy's `sensitive_patterns` mapping:
`{pattern, description, severity}`, with `severity` optional
(`pattern_info.get('severity', 'medium')` supplies the default). -/
structure PatternInfo where
  pattern : String
  description : String
  severity : Option String
deriving DecidableEq

/-- The loaded policy (`PolicyEngine.policy`).  `sensitive_patterns` is
an ordered association list: Python dicts preserve insertion order, and
`_compile_patterns`/`scan_content` iterate in that order.  Metadata
fields are optional, mirroring `policy.get(key, default)`. -/
structure Policy where
  name : Option String
  version : Option String
  description : Option String
  blocked_file_patterns : List String
  sensitive_patterns : List (String × PatternInfo)
deriving DecidableEq

/-- Abstraction of Python's `re` module: whether `re.compile(src,
re.IGNORECASE)` succeeds, and what `compiled.findall(content)` returns. -/
structure RegexEngine where
  compileOk : String → Bool
  findall : String → String → List String

/-- One compiled entry of `PolicyEngine.compiled_patterns`: the source
text standing for the compiled regex object, plus description and the
(defaulted) severity. -/
structure CompiledPattern where
  name : String
  regex : String
  description : String
  severity : String
deriving DecidableEq

/-- `PolicyEngine._compile_patterns`: compile each sensitive pattern in
declaration order, skipping (with a printed warning — a side effect
dropped by the embedding, no exception) any entry whose regex fails to
compile; missing severities default to `'medium'`. -/
def compile_patterns (eng : RegexEngine) (pol : Policy) : List CompiledPattern :=
  pol.sensitive_patterns.filterMap fun p =>
    if eng.compileOk p.2.pattern then
      some { name := p.1, regex := p.2.pattern, description := p.2.description,
             severity := p.2.severity.getD "medium" }
    else none

/-- The `PolicyEngine` object state after `__init__`: the loaded policy
and the compiled pattern set. -/
structure PolicyEngine where
  policy : Policy
  compiled_patterns : List CompiledPattern

/-- Construct a `PolicyEngine` from a loaded policy, as `__init__` does
(`self._compile_patterns()`). -/
def mkPolicyEngine (eng : RegexEngine) (pol : Policy) : PolicyEngine :=
  { policy := pol, compiled_patterns := compile_patterns eng pol }

/-- `PolicyEngine.is_file_blocked`: first glob in `blocked_file_patterns`
(declaration order) matching the path wins; returns `(is_blocked, reason)`. -/
def is_file_blocked (pol : Policy) (filepath : String) : Bool × Option String :=
  match pol.blocked_file_patterns.find? (fun pat => fnmatch filepath pat) with
  | some pat => (true, some ("File path matches blocked pattern: " ++ pat))
  | none => (false, none)

/-- A finding produced by `PolicyEngine.scan_content`. -/
structure Finding where
  pattern : String
  description : String
  severity : String
  match_count : Nat
  examples : List String
deriving DecidableEq

/-- The redaction applied to each displayed example in `scan_content`:
`match[:10] + "..." if len(match) > 10 else match`. -/
def redactMatch (m : String) : String :=
  if m.length > 10 then String.mk (m.data.take 10) ++ "..." else m

/-- `PolicyEngine.scan_content`: for each compiled pattern (declaration
order) run `findall`; emit a `Finding` only when there is at least one
match, with at most the first 3 matches as redacted examples. -/
def scan_content (eng : RegexEngine) (pe : PolicyEngine) (content : String) :
    List Finding :=
  pe.compiled_patterns.filterMap fun pd =>
    let ms := eng.findall pd.regex content
    if ms.isEmpty then none
    else some { pattern := pd.name, description := pd.description,
                severity := pd.severity, match_count := ms.length,
                examples := (ms.take 3).map redactMatch }

/-- Result of `PolicyEngine.get_policy_info` (`policy.get` defaults). -/
structure PolicyInfo where
  name : String
  version : String
  description : String
  blocked_patterns_count : Nat
  sensitive_patterns_count : Nat
deriving DecidableEq

/-- `PolicyEngine.get_policy_info`: counts come from the *declared*
policy (`len(self.policy.get('sensitive_patterns', {}))`), not from the
compiled set. -/
def get_policy_info (pol : Policy) : PolicyInfo :=
  { name := pol.name.getD "unknown",
    version := pol.version.getD "unknown",
    description := pol.description.getD "",
    blocked_patterns_count := pol.blocked_file_patterns.length,
    sensitive_patterns_count := pol.sensitive_patterns.length }

/-! ## Scanner (`scanner.py`) -/

/-- The outcome of `open(file_path, 'r', encoding='utf-8').read()`:
decoded text, a `UnicodeDecodeError` (binary content), or any other
read exception with its message. -/
inductive ReadResult
  | ok (content : String)
  | undecodable
  | ioError (msg : String)
deriving DecidableEq

/-- Abstract state of the filesystem at the scanned path: `Path.exists()`,
`Path.is_file()`, `stat().st_size`, and the result of reading the file
as UTF-8 text. -/
structure FileState where
  path_exists : Bool
  is_file : Bool
  size : Nat
  read : ReadResult
deriving DecidableEq

/-- The dictionary returned by `Scanner.scan_file`.  The `content` key
is present only in the two branches that actually read the file. -/
structure ScanVerdict where
  allowed : Bool
  reason : String
  findings : List Finding
  file_size : Nat
  error : Bool
  content : Option String
deriving DecidableEq

/-- `Scanner.scan_file`, branch for branch:
1. missing path → `error=true`;
2. not a regular file → `error=true`;
3. path matches a blocked glob → blocked (`error=false`), content never
   read;
4. undecodable / unreadable content → `error=true`;
5. findings present → blocked, reason grouping `critical` then `high`
   pattern names;
6. otherwise allowed. -/
def scan_file (eng : RegexEngine) (pe : PolicyEngine) (filepath : String)
    (fs : FileState) : ScanVerdict :=
  if !fs.path_exists then
    { allowed := false, reason := "File not found: " ++ filepath,
      findings := [], file_size := 0, error := true, content := none }
  else if !fs.is_file then
    { allowed := false, reason := "Not a file: " ++ filepath,
      findings := [], file_size := 0, error := true, content := none }
  else
    let file_size := fs.size
    let ib := is_file_blocked pe.policy filepath
    if ib.1 then
      { allowed := false, reason := ib.2.getD "", findings := [],
        file_size := file_size, error := false, content := none }
    else
      match fs.read with
      | .undecodable =>
        { allowed := false,
          reason := "File is not a valid text file (binary content detected)",
          findings := [], file_size := file_size, error := true, content := none }
      | .ioError msg =>
        { allowed := false, reason := "Error reading file: " ++ msg,
          findings := [], file_size := file_size, error := true, content := none }
      | .ok content =>
        let findings := scan_content eng pe content
        if !findings.isEmpty then
          let critical_findings := findings.filter (fun f => f.severity == "critical")
          let high_findings := findings.filter (fun f => f.severity == "high")
          let reason_parts :=
            (if !critical_findings.isEmpty then
              ["Critical: " ++ String.intercalate ", " (critical_findings.map (·.pattern))]
             else []) ++
            (if !high_findings.isEmpty then
              ["High: " ++ String.intercalate ", " (high_findings.map (·.pattern))]
             else [])
          { allowed := false,
            reason := "Sensitive content detected - " ++ String.intercalate "; " reason_parts,
            findings := findings, file_size := file_size, error := false,
            content := some content }
        else
          { allowed := true, reason := "No policy violations detected",
            findings := [], file_size := file_size, error := false,
            content := some content }

/-! ## Cost accounting (`ai_client.py`) -/

/-- Python's `round(x, d)` on exact rationals: round `x * 10^d` to the
nearest integer.  (Python rounds half to even; `round` here rounds half
up.  The two agree except on exact half-way ties, which never arise for
the 10^-6-exact pricing values below.) -/
def pyround (x : ℚ) (d : ℕ) : ℚ :=
  ((round (x * (10 : ℚ) ^ d) : ℤ) : ℚ) / (10 : ℚ) ^ d

/-- `AIClient.INPUT_PRICE_PER_1M` (USD per 1M input tokens). -/
def INPUT_PRICE_PER_1M : ℚ := 3

/-- `AIClient.OUTPUT_PRICE_PER_1M` (USD per 1M output tokens). -/
def OUTPUT_PRICE_PER_1M : ℚ := 15

/-- `AIClient._calculate_cost`: linear pricing rounded to 6 decimals. -/
def calculate_cost (input_tokens output_tokens : ℕ) : ℚ :=
  let input_cost := ((input_tokens : ℚ) / 1000000) * INPUT_PRICE_PER_1M
  let output_cost := ((output_tokens : ℚ) / 1000000) * OUTPUT_PRICE_PER_1M
  pyround (input_cost + output_cost) 6

/-- The dictionary returned by `AIClient.estimate_cost`. -/
structure CostEstimate where
  estimated_input_tokens : ℕ
  estimated_output_tokens : ℕ
  estimated_total_tokens : ℕ
  estimated_cost : ℚ
deriving DecidableEq

/-- `AIClient.estimate_cost`: character-count-based token estimation
(`len(code + target_description) // 4`, `len(code) // 4`) fed into the
same `_calculate_cost` pricing function. -/
def estimate_cost (code target_description : String) : CostEstimate :=
  let estimated_input_tokens := (code ++ target_description).length / 4
  let estimated_output_tokens := code.length / 4
  { estimated_input_tokens := estimated_input_tokens,
    estimated_output_tokens := estimated_output_tokens,
    estimated_total_tokens := estimated_input_tokens + estimated_output_tokens,
    estimated_cost := calculate_cost estimated_input_tokens estimated_output_tokens }

/-! ## Audit store (`audit_logger.py`) -/

/-- One row of the `audit_log` table.  `timestamp` abstracts the
store-assigned `datetime.utcnow().isoformat()` string as an instant
(ISO-8601 UTC strings of a fixed format order lexicographically exactly
as the instants they denote); `id` is the AUTOINCREMENT rowid. -/
structure AuditRecord where
  id : Nat
  timestamp : Nat
  filepath : String
  action : String
  status : String
  reason : Option String
  tokens_used : Int
  cost : ℚ
  findings : Option String
  model : Option String
  target_description : Option String
  original_code : Option String
  refactored_code : Option String
deriving DecidableEq

/-- The caller-supplied arguments of `AuditLogger.log_action`, with the
source's defaults.  `findings = []` stands for Python's `None`-or-empty,
both of which make `findings_str` `None` (`if findings:`). -/
structure LogArgs where
  filepath : String
  action : String
  status : String
  reason : Option String := none
  tokens_used : Int := 0
  cost : ℚ := 0
  findings : List Finding := []
  model : Option String := none
  target_description : Option String := none
  original_code : Option String := none
  refactored_code : Option String := none
deriving DecidableEq

/-- The summarisation of findings stored in the `findings` column:
`"; ".join(f"{pattern}({severity}): {match_count} matches")`, or NULL
when there are no findings. -/
def findings_to_str (fs : List Finding) : Option String :=
  if fs.isEmpty then none
  else some (String.intercalate "; " (fs.map fun f =>
    f.pattern ++ "(" ++ f.severity ++ "): " ++ toString f.match_count ++ " matches"))

/-- The state of the SQLite store: rows in insertion order plus the
AUTOINCREMENT counter (next rowid). -/
structure AuditState where
  next_id : Nat
  records : List AuditRecord
deriving DecidableEq

/-- A fresh database as `_init_database` creates it (AUTOINCREMENT
starts at rowid 1). -/
def init_state : AuditState := { next_id := 1, records := [] }

/-- The row inserted by `log_action` for arguments `a`, rowid `id` and
store-assigned timestamp `now`. -/
def mk_record (id : Nat) (now : Nat) (a : LogArgs) : AuditRecord :=
  { id := id, timestamp := now, filepath := a.filepath, action := a.action,
    status := a.status, reason := a.reason, tokens_used := a.tokens_used,
    cost := a.cost, findings := findings_to_str a.findings, model := a.model,
    target_description := a.target_description,
    original_code := a.original_code, refactored_code := a.refactored_code }

/-- `AuditLogger.log_action`: assign the timestamp at append time
(`datetime.utcnow()`, abstracted as the parameter `now`), insert the
row, and return the new state together with the rowid
(`cursor.lastrowid`). -/
def log_action (st : AuditState) (now : Nat) (a : LogArgs) : AuditState × Nat :=
  ({ next_id := st.next_id + 1,
     records := st.records ++ [mk_record st.next_id now a] },
   st.next_id)

/-- Append a whole sequence of `(timestamp, args)` requests in order. -/
def append_all (reqs : List (Nat × LogArgs)) (st : AuditState) : AuditState :=
  reqs.foldl (fun s p => (log_action s p.1 p.2).1) st

/-- Insert a record into a timestamp-descending list (helper of the
model of SQL `ORDER BY timestamp DESC`; the relative order of equal
timestamps is unspecified by SQLite and immaterial to the theorems
below, which assume distinct timestamps). -/
def insertDesc (r : AuditRecord) : List AuditRecord → List AuditRecord
  | [] => [r]
  | x :: xs => if x.timestamp ≤ r.timestamp then r :: x :: xs else x :: insertDesc r xs

/-- Sort rows by timestamp, newest first (SQL `ORDER BY timestamp DESC`). -/
def sortByTimestampDesc : List AuditRecord → List AuditRecord
  | [] => []
  | x :: xs => insertDesc x (sortByTimestampDesc xs)

/-- `AuditLogger.get_recent_logs`: `SELECT * FROM audit_log ORDER BY
timestamp DESC LIMIT ?`. -/
def get_recent_logs (st : AuditState) (limit : Nat) : List AuditRecord :=
  (sortByTimestampDesc st.records).take limit

/-- The SQL time filter of `get_logs_by_timeframe` /
`get_statistics_by_timeframe`: `datetime(timestamp) > datetime('now',
'-k days')`, i.e. `timestamp > now - k·86400` seconds, phrased
subtraction-free; any timeframe other than day/week/month keeps every
row (`1=1`). -/
def time_filter (timeframe : String) (now : Nat) (r : AuditRecord) : Bool :=
  if timeframe = "day" then decide (now < r.timestamp + 86400)
  else if timeframe = "week" then decide (now < r.timestamp + 7 * 86400)
  else if timeframe = "month" then decide (now < r.timestamp + 30 * 86400)
  else true

/-- The dictionary returned by `get_statistics_by_timeframe`.
`status_counts` models the `GROUP BY status` result as a count
function. -/
structure TimeframeStats where
  total_requests : Nat
  total_tokens : Int
  total_cost : ℚ
  status_counts : String → Nat
  timeframe : String

/-- `AuditLogger.get_statistics_by_timeframe`: filter by timeframe, then
`COUNT(*)`, `SUM(tokens_used)`, `round(SUM(cost), 4)` and per-status
counts (`x or 0` coalesces the NULL sums of an empty table to 0, as the
empty sums here do). -/
def get_statistics_by_timeframe (st : AuditState) (timeframe : String)
    (now : Nat) : TimeframeStats :=
  let rows := st.records.filter (time_filter timeframe now)
  { total_requests := rows.length,
    total_tokens := (rows.map (·.tokens_used)).sum,
    total_cost := pyround ((rows.map (·.cost)).sum) 4,
    status_counts := fun s => (rows.filter (fun r => r.status == s)).length,
    timeframe := timeframe }

/-! ## Concrete test fixtures (used by witnesses and counterexamples) -/

/-- A concrete regex engine: `"bad_re"` fails to compile; the pattern
source `"pw_re"` matches once (the long string
`"averylongsecretmatch"`) in the content `"secret pw here"` and nowhere
else; other patterns never match. -/
def wEng : RegexEngine where
  compileOk := fun src => src != "bad_re"
  findall := fun src content =>
    if src == "pw_re" && content == "secret pw here" then
      ["averylongsecretmatch"]
    else []

/-- A concrete policy: two blocked globs and three sensitive patterns,
one without a severity and one whose regex does not compile. -/
def wPolicy : Policy where
  name := some "test-policy"
  version := some "1.0"
  description := none
  blocked_file_patterns := ["*/legacy/*secret*", "*.env"]
  sensitive_patterns :=
    [("password_pattern",
      { pattern := "pw_re", description := "Passwords", severity := some "critical" }),
     ("token_pattern",
      { pattern := "tok_re", description := "Tokens", severity := none }),
     ("broken_pattern",
      { pattern := "bad_re", description := "Broken", severity := some "high" })]

/-- The concrete policy engine built from `wPolicy` and `wEng`. -/
def wPe : PolicyEngine := mkPolicyEngine wEng wPolicy

/-- An existing regular text file with clean content. -/
def wFsClean : FileState :=
  { path_exists := true, is_file := true, size := 5, read := .ok "clean" }

/-- An existing regular file whose content is not decodable as text. -/
def wFsBin : FileState :=
  { path_exists := true, is_file := true, size := 9, read := .undecodable }

/-- A missing path. -/
def wFsMissing : FileState :=
  { path_exists := false, is_file := false, size := 0, read := .undecodable }

/-- An existing regular text file whose content matches `"pw_re"`. -/
def wFsSecret : FileState :=
  { path_exists := true, is_file := true, size := 14, read := .ok "secret pw here" }

/-! ## Theorems -/

/-- Closed form of `_calculate_cost`: the priced value is an exact
multiple of 10^-6, so the 6-decimal rounding is the identity on it. -/
theorem calculate_cost_eq (i o : ℕ) :
    calculate_cost i o = ((3 * i + 15 * o : ℕ) : ℚ) / 1000000 := by
  show pyround (((i : ℚ) / 1000000) * INPUT_PRICE_PER_1M +
      ((o : ℚ) / 1000000) * OUTPUT_PRICE_PER_1M) 6 = _
  rw [INPUT_PRICE_PER_1M, OUTPUT_PRICE_PER_1M, pyround]
  have h : (((i : ℚ) / 1000000) * 3 + ((o : ℚ) / 1000000) * 15) * (10 : ℚ) ^ 6
      = ((3 * i + 15 * o : ℕ) : ℚ) := by
    push_cast
    ring
  rw [h, round_natCast]
  norm_num

/-- C7: `_calculate_cost(0,0) = 0`; the cost is additive (hence, with
the zero case, linear) in the two token counts; it is monotonically
non-decreasing in each token count; and `estimate_cost` prices its
character-count-estimated token counts with the same `_calculate_cost`
function, differing only in the token counts supplied. -/
theorem calculate_cost_linear_monotone_shared_formula :
    calculate_cost 0 0 = 0 ∧
    (∀ a b c d : ℕ,
      calculate_cost (a + c) (b + d) = calculate_cost a b + calculate_cost c d) ∧
    (∀ a a' b : ℕ, a ≤ a' → calculate_cost a b ≤ calculate_cost a' b) ∧
    (∀ a b b' : ℕ, b ≤ b' → calculate_cost a b ≤ calculate_cost a b') ∧
    (∀ code target_description : String,
      (estimate_cost code target_description).estimated_cost =
        calculate_cost ((code ++ target_description).length / 4)
          (code.length / 4)) := by
  refine ⟨?_, ?_, ?_, ?_, ?_⟩
  · rw [calculate_cost_eq]
    norm_num
  · intro a b c d
    rw [calculate_cost_eq, calculate_cost_eq, calculate_cost_eq]
    push_cast
    ring
  · intro a a' b h
    rw [calculate_cost_eq, calculate_cost_eq]
    have : ((3 * a + 15 * b : ℕ) : ℚ) ≤ ((3 * a' + 15 * b : ℕ) : ℚ) := by
      exact_mod_cast Nat.add_le_add_right (Nat.mul_le_mul_left 3 h) _
    exact div_le_div_of_nonneg_right this (by norm_num) |>.trans_eq rfl
  · intro a b b' h
    rw [calculate_cost_eq, calculate_cost_eq]
    have : ((3 * a + 15 * b : ℕ) : ℚ) ≤ ((3 * a + 15 * b' : ℕ) : ℚ) := by
      exact_mod_cast Nat.add_le_add_left (Nat.mul_le_mul_left 15 h) _
    exact div_le_div_of_nonneg_right this (by norm_num) |>.trans_eq rfl
  · intro code target_description
    rfl

/-- Witness for C7: the monotonicity clauses instantiated at concrete
token counts. -/
theorem calculate_cost_monotone_witness :
    calculate_cost 2 3 ≤ calculate_cost 5 3 ∧
    calculate_cost 2 3 ≤ calculate_cost 2 7 :=
  ⟨calculate_cost_linear_monotone_shared_formula.2.2.1 2 5 3 (by decide),
   calculate_cost_linear_monotone_shared_formula.2.2.2.1 2 3 7 (by decide)⟩

/-- The records created by a sequence of appends starting at rowid `id`. -/
def build_records (id : Nat) : List (Nat × LogArgs) → List AuditRecord
  | [] => []
  | (t, a) :: rs => mk_record id t a :: build_records (id + 1) rs

theorem build_records_length (id : Nat) (reqs : List (Nat × LogArgs)) :
    (build_records id reqs).length = reqs.length := by
  induction reqs generalizing id with
  | nil => rfl
  | cons r rs ih =>
    obtain ⟨t, a⟩ := r
    simp [build_records, ih]

theorem build_records_timestamps (id : Nat) (reqs : List (Nat × LogArgs)) :
    (build_records id reqs).map (·.timestamp) = reqs.map Prod.fst := by
  induction reqs generalizing id with
  | nil => rfl
  | cons r rs ih =>
    obtain ⟨t, a⟩ := r
    simp [build_records, mk_record, ih]

theorem append_all_records (reqs : List (Nat × LogArgs)) (st : AuditState) :
    (append_all reqs st).records = st.records ++ build_records st.next_id reqs := by
  induction reqs generalizing st with
  | nil => simp [append_all, build_records]
  | cons r rs ih =>
    obtain ⟨t, a⟩ := r
    show (append_all rs (log_action st t a).1).records = _
    rw [ih]
    simp [log_action, build_records]

theorem insertDesc_of_lt (x : AuditRecord) (m : List AuditRecord)
    (h : ∀ y ∈ m, ¬ (y.timestamp ≤ x.timestamp)) :
    insertDesc x m = m ++ [x] := by
  induction m with
  | nil => rfl
  | cons y ys ih =>
    rw [insertDesc, if_neg (h y (List.mem_cons_self y ys))]
    rw [ih fun z hz => h z (List.mem_cons_of_mem y hz)]
    rfl

theorem sortDesc_of_ascending (l : List AuditRecord)
    (h : l.Pairwise (fun a b => a.timestamp < b.timestamp)) :
    sortByTimestampDesc l = l.reverse := by
  induction l with
  | nil => rfl
  | cons x xs ih =>
    rw [List.pairwise_cons] at h
    rw [sortByTimestampDesc, ih h.2, insertDesc_of_lt]
    · rw [List.reverse_cons]
    · intro y hy
      exact not_le.mpr (h.1 y (List.mem_reverse.mp hy))

/-- C6: appending `N` records (with strictly increasing store-assigned
UTC timestamps, as `datetime.utcnow()` delivers between successive
appends) to a fresh store and then calling `get_recent_logs N` returns
exactly those `N` records — the reverse of the insertion sequence, i.e.
newest first by the store-assigned timestamps. -/
theorem recent_logs_returns_appended_newest_first
    (reqs : List (Nat × LogArgs))
    (hmono : (reqs.map Prod.fst).Pairwise (· < ·)) :
    (append_all reqs init_state).records.length = reqs.length ∧
    (append_all reqs init_state).records.map (·.timestamp) = reqs.map Prod.fst ∧
    get_recent_logs (append_all reqs init_state) reqs.length =
      (append_all reqs init_state).records.reverse := by
  have hrec : (append_all reqs init_state).records = build_records 1 reqs := by
    rw [append_all_records]
    rfl
  have hts : (append_all reqs init_state).records.map (·.timestamp) =
      reqs.map Prod.fst := by
    rw [hrec, build_records_timestamps]
  have hlen : (append_all reqs init_state).records.length = reqs.length := by
    rw [hrec, build_records_length]
  refine ⟨hlen, hts, ?_⟩
  have hpw : (append_all reqs init_state).records.Pairwise
      (fun a b => a.timestamp < b.timestamp) := by
    rw [← List.pairwise_map (f := fun r : AuditRecord => r.timestamp)]
    rw [hts]
    exact hmono
  rw [get_recent_logs, sortDesc_of_ascending _ hpw, ← hlen,
    ← List.length_reverse, List.take_length]

/-- Concrete append arguments for the C6 witness. -/
def wArgs1 : LogArgs := { filepath := "a.py", action := "scan", status := "allowed" }

/-- Concrete append arguments for the C6 witness. -/
def wArgs2 : LogArgs := { filepath := "b.py", action := "refactor", status := "blocked" }

/-- Witness for C6: two appends at timestamps 10 < 20. -/
theorem recent_logs_newest_first_witness :
    (append_all [(10, wArgs1), (20, wArgs2)] init_state).records.length = 2 ∧
    (append_all [(10, wArgs1), (20, wArgs2)] init_state).records.map (·.timestamp)
      = [10, 20] ∧
    get_recent_logs (append_all [(10, wArgs1), (20, wArgs2)] init_state) 2 =
      (append_all [(10, wArgs1), (20, wArgs2)] init_state).records.reverse :=
  recent_logs_returns_appended_newest_first [(10, wArgs1), (20, wArgs2)]
    (by simp)

/-- C8: for any appended sequence, `get_statistics_by_timeframe('all')`
reports `total_requests` equal to the number of all appended records,
whatever each record's status. -/
theorem statistics_all_counts_every_record
    (reqs : List (Nat × LogArgs)) (now : Nat) :
    (get_statistics_by_timeframe (append_all reqs init_state) "all" now).total_requests
      = reqs.length := by
  show ((append_all reqs init_state).records.filter (time_filter "all" now)).length = _
  have hall : ∀ r, time_filter "all" now r = true := by
    intro r
    rfl
  rw [List.filter_eq_self.mpr fun r _ => hall r]
  rw [append_all_records]
  show (build_records 1 reqs).length = _
  rw [build_records_length]

/-! ### Path-block characterisation -/

theorem is_file_blocked_fst_false_iff (pol : Policy) (fp : String) :
    (is_file_blocked pol fp).1 = false ↔
      ∀ g ∈ pol.blocked_file_patterns, fnmatch fp g = false := by
  unfold is_file_blocked
  cases hfind : pol.blocked_file_patterns.find? (fun pat => fnmatch fp pat) with
  | none =>
    simp only [hfind]
    constructor
    · intro _ g hg
      have := List.find?_eq_none.mp hfind g hg
      simpa using this
    · intro _
      trivial
  | some pat =>
    simp only [hfind]
    constructor
    · intro h
      cases h
    · intro hall
      have hp : fnmatch fp pat = true := List.find?_some hfind
      rw [hall pat (List.mem_of_find?_eq_some hfind)] at hp
      cases hp

/-! ### C1 -/

/-- C1: for an existing regular text file, `scan_file` allows the file
iff the path matches no blocked glob and the content scan yields zero
findings; any finding, of any severity, blocks. -/
theorem scan_file_allowed_iff_no_block_and_no_findings
    (eng : RegexEngine) (pe : PolicyEngine) (filepath : String)
    (fs : FileState) (content : String)
    (hex : fs.path_exists = true) (hf : fs.is_file = true)
    (hr : fs.read = ReadResult.ok content) :
    (scan_file eng pe filepath fs).allowed = true ↔
      ((∀ g ∈ pe.policy.blocked_file_patterns, fnmatch filepath g = false) ∧
       scan_content eng pe content = []) := by
  rw [scan_file, hex, hf, hr]
  simp only [Bool.not_true, Bool.false_eq_true, if_false]
  cases hb : (is_file_blocked pe.policy filepath).1 with
  | true =>
    simp only [hb, if_true]
    constructor
    · intro h
      cases h
    · rintro ⟨hall, -⟩
      rw [(is_file_blocked_fst_false_iff pe.policy filepath).mpr hall] at hb
      cases hb
  | false =>
    simp only [hb, Bool.false_eq_true, if_false]
    cases hsc : scan_content eng pe content with
    | nil =>
      simp only [List.isEmpty_nil, Bool.not_true, Bool.false_eq_true, if_false]
      exact iff_of_true trivial
        ⟨(is_file_blocked_fst_false_iff pe.policy filepath).mp hb, trivial⟩
    | cons f rest =>
      simp only [hsc, List.isEmpty_cons, Bool.not_false, if_true]
      constructor
      · intro h
        cases h
      · rintro ⟨-, habs⟩
        cases habs

/-- Witness for C1: a clean existing text file under the concrete test
policy. -/
theorem scan_file_allowed_iff_witness :
    (scan_file wEng wPe "app/main.py" wFsClean).allowed = true ↔
      ((∀ g ∈ wPe.policy.blocked_file_patterns, fnmatch "app/main.py" g = false) ∧
       scan_content wEng wPe "clean" = []) :=
  scan_file_allowed_iff_no_block_and_no_findings wEng wPe "app/main.py"
    wFsClean "clean" rfl rfl rfl

/-! ### C2 -/

/-- C2: when the path matches a blocked glob (`g` being the first match
in declaration order, as `find?` returns), `scan_file` on an existing
regular file returns the blocked, non-error verdict whose reason names
`g`, with no findings and no content field; and the verdict is the same
for every file state with that size, whatever the content or read
outcome — the content is never read or scanned. -/
theorem scan_file_path_block_short_circuits
    (eng : RegexEngine) (pe : PolicyEngine) (filepath : String)
    (fs : FileState) (g : String)
    (hex : fs.path_exists = true) (hf : fs.is_file = true)
    (hfind : pe.policy.blocked_file_patterns.find? (fun pat => fnmatch filepath pat)
      = some g) :
    scan_file eng pe filepath fs =
      { allowed := false, reason := "File path matches blocked pattern: " ++ g,
        findings := [], file_size := fs.size, error := false, content := none } ∧
    ∀ fs' : FileState, fs'.path_exists = true → fs'.is_file = true →
      fs'.size = fs.size →
      scan_file eng pe filepath fs' = scan_file eng pe filepath fs := by
  have hib : is_file_blocked pe.policy filepath =
      (true, some ("File path matches blocked pattern: " ++ g)) := by
    rw [is_file_blocked, hfind]
  have hmain : ∀ fs'' : FileState, fs''.path_exists = true → fs''.is_file = true →
      scan_file eng pe filepath fs'' =
        { allowed := false, reason := "File path matches blocked pattern: " ++ g,
          findings := [], file_size := fs''.size, error := false, content := none } := by
    intro fs'' hex'' hf''
    rw [scan_file, hex'', hf'', hib]
    rfl
  refine ⟨hmain fs hex hf, ?_⟩
  intro fs' hex' hf' hsize
  rw [hmain fs' hex' hf', hmain fs hex hf, hsize]

/-- Witness for C2: the spec's scenario — glob `*/legacy/*secret*`
blocks `app/legacy/secrets.conf` without the content being read. -/
theorem scan_file_path_block_witness :
    scan_file wEng wPe "app/legacy/secrets.conf" wFsClean =
      { allowed := false,
        reason := "File path matches blocked pattern: " ++ "*/legacy/*secret*",
        findings := [], file_size := wFsClean.size, error := false,
        content := none } ∧
    ∀ fs' : FileState, fs'.path_exists = true → fs'.is_file = true →
      fs'.size = wFsClean.size →
      scan_file wEng wPe "app/legacy/secrets.conf" fs' =
        scan_file wEng wPe "app/legacy/secrets.conf" wFsClean :=
  scan_file_path_block_short_circuits wEng wPe "app/legacy/secrets.conf"
    wFsClean "*/legacy/*secret*" rfl rfl (by decide)

/-! ### C9 -/

/-- C9: the verdict is a deterministic, idempotent function of the
policy (with its compiled patterns), the path and the observable file
state — two evaluations over equal inputs return identical verdicts in
every field.  (The embedding of `scan_file` is a pure function; the
Python code's only inputs beyond its arguments are the policy object
and the filesystem state, both captured here as parameters.) -/
theorem scan_file_deterministic_in_policy_and_file_state
    (eng : RegexEngine) (pe : PolicyEngine) (filepath : String)
    (fs fs' : FileState)
    (h1 : fs.path_exists = fs'.path_exists) (h2 : fs.is_file = fs'.is_file)
    (h3 : fs.size = fs'.size) (h4 : fs.read = fs'.read) :
    (scan_file eng pe filepath fs).allowed = (scan_file eng pe filepath fs').allowed ∧
    (scan_file eng pe filepath fs).reason = (scan_file eng pe filepath fs').reason ∧
    (scan_file eng pe filepath fs).findings = (scan_file eng pe filepath fs').findings ∧
    (scan_file eng pe filepath fs).file_size = (scan_file eng pe filepath fs').file_size ∧
    (scan_file eng pe filepath fs).error = (scan_file eng pe filepath fs').error ∧
    (scan_file eng pe filepath fs).content = (scan_file eng pe filepath fs').content := by
  have : fs = fs' := by
    cases fs
    cases fs'
    cases h1
    cases h2
    cases h3
    cases h4
    rfl
  rw [this]
  exact ⟨rfl, rfl, rfl, rfl, rfl, rfl⟩

/-- Witness for C9: two evaluations over the same concrete inputs. -/
theorem scan_file_deterministic_witness :
    (scan_file wEng wPe "a.txt" wFsSecret).allowed
      = (scan_file wEng wPe "a.txt" wFsSecret).allowed ∧
    (scan_file wEng wPe "a.txt" wFsSecret).reason
      = (scan_file wEng wPe "a.txt" wFsSecret).reason ∧
    (scan_file wEng wPe "a.txt" wFsSecret).findings
      = (scan_file wEng wPe "a.txt" wFsSecret).findings ∧
    (scan_file wEng wPe "a.txt" wFsSecret).file_size
      = (scan_file wEng wPe "a.txt" wFsSecret).file_size ∧
    (scan_file wEng wPe "a.txt" wFsSecret).error
      = (scan_file wEng wPe "a.txt" wFsSecret).error ∧
    (scan_file wEng wPe "a.txt" wFsSecret).content
      = (scan_file wEng wPe "a.txt" wFsSecret).content :=
  scan_file_deterministic_in_policy_and_file_state wEng wPe "a.txt"
    wFsSecret wFsSecret rfl rfl rfl rfl

/-! ### C4 (corrected) -/

/-- Counterexample to C4 as stated: `x.env` matches the blocked glob
`*.env` of the test policy, so for an existing regular file at that
path whose content is *not decodable as text*, `scan_file` returns the
blocked verdict with `error = false` — not the `error = true` verdict
the claim requires for every undecodable file. -/
theorem scan_file_undecodable_blocked_path_not_error :
    wFsBin.path_exists = true ∧ wFsBin.is_file = true ∧
    wFsBin.read = ReadResult.undecodable ∧
    fnmatch "x.env" "*.env" = true ∧
    (scan_file wEng wPe "x.env" wFsBin).error = false := by
  decide

/-- C4 as amended: a missing path or a non-regular file always yields
`error = true, allowed = false` with no findings; and so does
undecodable (or otherwise unreadable) content *provided the path is not
blocked by a glob* — a blocked path short-circuits before reading and
returns the blocked `error = false` verdict instead.  The embedded
`scan_file` is a total function: every outcome is a returned verdict,
never an exception. -/
theorem scan_file_error_cases
    (eng : RegexEngine) (pe : PolicyEngine) (filepath : String) (fs : FileState)
    (h : fs.path_exists = false ∨ fs.is_file = false ∨
         ((is_file_blocked pe.policy filepath).1 = false ∧
          ∀ c : String, fs.read ≠ ReadResult.ok c)) :
    (scan_file eng pe filepath fs).error = true ∧
    (scan_file eng pe filepath fs).allowed = false ∧
    (scan_file eng pe filepath fs).findings = [] := by
  rcases h with h1 | h2 | ⟨hb, hread⟩
  · rw [scan_file, h1]
    exact ⟨rfl, rfl, rfl⟩
  · cases hpe : fs.path_exists with
    | false =>
      rw [scan_file, hpe]
      exact ⟨rfl, rfl, rfl⟩
    | true =>
      rw [scan_file, hpe, h2]
      exact ⟨rfl, rfl, rfl⟩
  · cases hpe : fs.path_exists with
    | false =>
      rw [scan_file, hpe]
      exact ⟨rfl, rfl, rfl⟩
    | true =>
      cases hif : fs.is_file with
      | false =>
        rw [scan_file, hpe, hif]
        exact ⟨rfl, rfl, rfl⟩
      | true =>
        rw [scan_file, hpe, hif]
        simp only [Bool.not_true, Bool.false_eq_true, if_false, hb]
        cases hrd : fs.read with
        | ok c => exact absurd hrd (hread c)
        | undecodable => exact ⟨rfl, rfl, rfl⟩
        | ioError msg => exact ⟨rfl, rfl, rfl⟩

/-- Witness for the amended C4: a missing path. -/
theorem scan_file_error_cases_witness :
    (scan_file wEng wPe "gone.py" wFsMissing).error = true ∧
    (scan_file wEng wPe "gone.py" wFsMissing).allowed = false ∧
    (scan_file wEng wPe "gone.py" wFsMissing).findings = [] :=
  scan_file_error_cases wEng wPe "gone.py" wFsMissing (Or.inl rfl)

/-! ### C3 -/

/-- C3: every finding carries at most 3 examples; each example is
`redactMatch` of some match — shown verbatim when the match has at most
10 characters, otherwise its first 10 characters followed by `"..."` —
so each example string has length at most 13 and shows at most 10 raw
characters of the match. -/
theorem scan_content_examples_redacted
    (eng : RegexEngine) (pe : PolicyEngine) (content : String)
    (f : Finding) (hf : f ∈ scan_content eng pe content) :
    f.examples.length ≤ 3 ∧
    ∀ e ∈ f.examples,
      (∃ m : String, e = redactMatch m ∧
        (m.length ≤ 10 → e = m) ∧
        (10 < m.length → e = String.mk (m.data.take 10) ++ "...")) ∧
      e.length ≤ 13 := by
  rw [scan_content] at hf
  obtain ⟨pd, hpd, hsome⟩ := List.mem_filterMap.mp hf
  have hsome' : (if (eng.findall pd.regex content).isEmpty then (none : Option Finding)
      else some { pattern := pd.name, description := pd.description,
                  severity := pd.severity,
                  match_count := (eng.findall pd.regex content).length,
                  examples := ((eng.findall pd.regex content).take 3).map redactMatch })
      = some f := hsome
  by_cases hms : (eng.findall pd.regex content).isEmpty
  · rw [if_pos hms] at hsome'
    cases hsome'
  · rw [if_neg hms] at hsome'
    injection hsome' with hfeq
    subst hfeq
    constructor
    · show (((eng.findall pd.regex content).take 3).map redactMatch).length ≤ 3
      rw [List.length_map]
      exact List.length_take_le 3 _
    · intro e he
      obtain ⟨m, hm, rfl⟩ := List.mem_map.mp he
      refine ⟨⟨m, rfl, ?_, ?_⟩, ?_⟩
      · intro hle
        rw [redactMatch, if_neg (by omega)]
      · intro hgt
        rw [redactMatch, if_pos hgt]
      · by_cases h10 : 10 < m.length
        · rw [redactMatch, if_pos h10, String.length_append, String.mk_length,
            List.length_take]
          have hd : m.data.length = m.length := rfl
          have h3 : ("..." : String).length = 3 := rfl
          omega
        · rw [redactMatch, if_neg h10]
          omega

/-- The single finding `scan_content` produces on the fixture content
`"secret pw here"`: one long match, redacted to its first 10 characters
plus an ellipsis. -/
def wFinding : Finding :=
  { pattern := "password_pattern", description := "Passwords",
    severity := "critical", match_count := 1, examples := ["averylongs..."] }

/-- Witness for C3: the fixture finding with its truncated example. -/
theorem scan_content_examples_redacted_witness :
    wFinding.examples.length ≤ 3 ∧
    ∀ e ∈ wFinding.examples,
      (∃ m : String, e = redactMatch m ∧
        (m.length ≤ 10 → e = m) ∧
        (10 < m.length → e = String.mk (m.data.take 10) ++ "...")) ∧
      e.length ≤ 13 :=
  scan_content_examples_redacted wEng wPe "secret pw here" wFinding (by decide)

/-! ### C5 -/

/-- A `filterMap` whose function is an if-then-some-else-none is the
`map` of the `filter`. -/
theorem filterMap_if_eq_filter_map {α β : Type _} (q : α → Bool) (g : α → β)
    (l : List α) :
    (l.filterMap fun a => if q a then some (g a) else none) = (l.filter q).map g := by
  induction l with
  | nil => rfl
  | cons x xs ih =>
    by_cases h : q x
    · simp [List.filterMap_cons, List.filter_cons, h, ih]
    · simp [List.filterMap_cons, List.filter_cons, h, ih]

/-- C5: pattern compilation keeps, in declaration order, exactly the
entries whose regex compiles — skipping a failing entry is total (a
warning, not an exception) and leaves every other pattern in force, so
scans behave as if only the bad entries had been removed; and
`get_policy_info().sensitive_patterns_count` is the full declared
count of `sensitive_patterns`, not the compiled count. -/
theorem compile_skips_only_invalid_and_counts_declared
    (eng : RegexEngine) (pol : Policy) :
    compile_patterns eng pol =
      (pol.sensitive_patterns.filter fun p => eng.compileOk p.2.pattern).map
        (fun p => { name := p.1, regex := p.2.pattern,
                    description := p.2.description,
                    severity := p.2.severity.getD "medium" }) ∧
    (get_policy_info pol).sensitive_patterns_count
      = pol.sensitive_patterns.length ∧
    ∀ content : String,
      scan_content eng (mkPolicyEngine eng pol) content =
        scan_content eng (mkPolicyEngine eng
          { pol with sensitive_patterns :=
              pol.sensitive_patterns.filter fun p => eng.compileOk p.2.pattern })
          content := by
  have hchar : ∀ l : List (String × PatternInfo),
      (l.filterMap fun p =>
        if eng.compileOk p.2.pattern then
          some ({ name := p.1, regex := p.2.pattern,
                  description := p.2.description,
                  severity := p.2.severity.getD "medium" } : CompiledPattern)
        else none) =
      (l.filter fun p => eng.compileOk p.2.pattern).map
        (fun p => { name := p.1, regex := p.2.pattern,
                    description := p.2.description,
                    severity := p.2.severity.getD "medium" }) :=
    fun l => filterMap_if_eq_filter_map _ _ l
  refine ⟨hchar pol.sensitive_patterns, rfl, ?_⟩
  intro content
  show (compile_patterns eng pol).filterMap _
      = (compile_patterns eng
          { pol with sensitive_patterns :=
              pol.sensitive_patterns.filter fun p => eng.compileOk p.2.pattern }).filterMap _
  have hcomp : compile_patterns eng pol =
      compile_patterns eng
        { pol with sensitive_patterns :=
            pol.sensitive_patterns.filter fun p => eng.compileOk p.2.pattern } := by
    show pol.sensitive_patterns.filterMap _
        = (pol.sensitive_patterns.filter fun p => eng.compileOk p.2.pattern).filterMap _
    rw [hchar, hchar, List.filter_filter]
    simp
  rw [hcomp]

/-! ### C10 -/

/-- In an association list with nodup keys (as a Python dict always
is), a key determines its value. -/
theorem keys_nodup_mem_unique {l : List (String × PatternInfo)}
    (h : (l.map Prod.fst).Nodup) {a : String} {b1 b2 : PatternInfo}
    (h1 : (a, b1) ∈ l) (h2 : (a, b2) ∈ l) : b1 = b2 := by
  induction l with
  | nil => cases h1
  | cons x xs ih =>
    rw [List.map_cons, List.nodup_cons] at h
    rcases List.mem_cons.mp h1 with heq1 | h1'
    · rcases List.mem_cons.mp h2 with heq2 | h2'
      · rw [← heq1] at heq2
        exact (Prod.mk.injEq _ _ _ _ ▸ heq2 : (a, b2) = (a, b1)) |> fun hp =>
          ((Prod.ext_iff.mp hp).2).symm
      · exact absurd (List.mem_map.mpr ⟨(a, b2), h2', by rw [← heq1]⟩) h.1
    · rcases List.mem_cons.mp h2 with heq2 | h2'
      · exact absurd (List.mem_map.mpr ⟨(a, b1), h1', by rw [← heq2]⟩) h.1
      · exact ih h.2 h1' h2'

/-- C10: a sensitive pattern declared without a `severity` field is
compiled with severity `"medium"` (no failure, no empty severity), and
every finding that pattern produces carries severity `"medium"`. -/
theorem missing_severity_defaults_to_medium
    (eng : RegexEngine) (pol : Policy)
    (hkeys : (pol.sensitive_patterns.map Prod.fst).Nodup)
    (n : String) (i : PatternInfo)
    (hmem : (n, i) ∈ pol.sensitive_patterns) (hsev : i.severity = none)
    (hok : eng.compileOk i.pattern = true) :
    (∃ cp ∈ compile_patterns eng pol, cp.name = n ∧ cp.severity = "medium") ∧
    ∀ content : String, ∀ f ∈ scan_content eng (mkPolicyEngine eng pol) content,
      f.pattern = n → f.severity = "medium" := by
  constructor
  · refine ⟨{ name := n, regex := i.pattern, description := i.description,
              severity := i.severity.getD "medium" },
      List.mem_filterMap.mpr ⟨(n, i), hmem, by simp [hok]⟩, rfl, by rw [hsev]; rfl⟩
  · intro content f hf hname
    obtain ⟨pd, hpd, hsome⟩ := List.mem_filterMap.mp hf
    have hsome' : (if (eng.findall pd.regex content).isEmpty then (none : Option Finding)
        else some { pattern := pd.name, description := pd.description,
                    severity := pd.severity,
                    match_count := (eng.findall pd.regex content).length,
                    examples := ((eng.findall pd.regex content).take 3).map redactMatch })
        = some f := hsome
    by_cases hms : (eng.findall pd.regex content).isEmpty
    · rw [if_pos hms] at hsome'
      cases hsome'
    · rw [if_neg hms] at hsome'
      injection hsome' with hfeq
      subst hfeq
      obtain ⟨p, hpmem, hpeq⟩ := List.mem_filterMap.mp hpd
      have hpeq' : (if eng.compileOk p.2.pattern then
          some ({ name := p.1, regex := p.2.pattern,
                  description := p.2.description,
                  severity := p.2.severity.getD "medium" } : CompiledPattern)
          else none) = some pd := hpeq
      by_cases hq : eng.compileOk p.2.pattern
      · rw [if_pos hq] at hpeq'
        injection hpeq' with hpd_eq
        subst hpd_eq
        have hfst : p.1 = n := hname
        have hmem' : (n, p.2) ∈ pol.sensitive_patterns := by
          rw [← hfst]
          exact hpmem
        have : p.2 = i := keys_nodup_mem_unique hkeys hmem' hmem
        show p.2.severity.getD "medium" = "medium"
        rw [this, hsev]
        rfl
      · rw [if_neg hq] at hpeq'
        cases hpeq'

/-- Witness for C10: the fixture's `token_pattern` has no severity
field and compiles to severity `"medium"`. -/
theorem missing_severity_defaults_witness :
    ∃ cp ∈ compile_patterns wEng wPolicy, cp.name = "token_pattern" ∧
      cp.severity = "medium" :=
  (missing_severity_defaults_to_medium wEng wPolicy (by decide) "token_pattern"
    { pattern := "tok_re", description := "Tokens", severity := none }
    (by decide) rfl (by decide)).1

end AIGov
